import Mathlib

/-!
Shallow embedding of `src/app.py` of the pdf-toc-navigation repository.

The embedding models the request-scoped core of the service: the
grounding-data TOC extraction (`extract_toc_from_grounding`, app.py lines
20-83) and the `add_navigation` pipeline (app.py lines 85-212) after the
PDF bytes have been downloaded and parsed.  Python runtime errors raised
inside the handler are modelled with `Except PyErr`; the handler's outer
`except Exception` (app.py lines 210-212) corresponds to an `Except.error`
result, i.e. a failed request (HTTP 500), while `Except.ok` carries the
document that would be serialized and returned.

Python numbers are modelled as exact fractions (`Frac`, kept
unnormalized so that every operation is structural); Python strings are
modelled as Lean strings, with the string operations of the source
(`split`, `strip`, `in`, `int(...)`, slicing) reimplemented structurally
over character lists so that they follow Python semantics and evaluate
inside the kernel.
-/

namespace PdfToc

/-- Python exception kinds that the embedded code can raise. -/
inductive PyErr where
  | keyError
  | indexError
  | valueError
  | typeError
  | attributeError
deriving DecidableEq

/-- An exact fraction `num / den`.  Values built from JSON literals and
by the arithmetic of the embedded code always have a positive
denominator; operations do not normalize, so they are all structural and
kernel-evaluable. -/
structure Frac where
  num : Int
  den : Int
deriving DecidableEq

/-- Embed an integer literal. -/
def Frac.fromInt (n : Int) : Frac := ⟨n, 1⟩

/-- Python `a + b` on numbers. -/
def Frac.add (a b : Frac) : Frac := ⟨a.num * b.den + b.num * a.den, a.den * b.den⟩

/-- Python `a - b` on numbers. -/
def Frac.sub (a b : Frac) : Frac := ⟨a.num * b.den - b.num * a.den, a.den * b.den⟩

/-- Python `a * b` on numbers. -/
def Frac.mul (a b : Frac) : Frac := ⟨a.num * b.num, a.den * b.den⟩

/-- Python `a / 2`. -/
def Frac.half (a : Frac) : Frac := ⟨a.num, a.den * 2⟩

/-- The rational value of a fraction. -/
def Frac.toRat (f : Frac) : ℚ := (f.num : ℚ) / (f.den : ℚ)

/-- Python `int(x)` on a number: truncation toward zero (for a positive
denominator `Int.tdiv` truncates toward zero). -/
def pyTrunc (f : Frac) : Int := f.num.tdiv f.den

/-- Truncation toward zero of a rational, used to state what `int(x)`
computes. -/
def ratTrunc (q : ℚ) : Int := if q < 0 then ⌈q⌉ else ⌊q⌋

/-- JSON-like Python values, as delivered by `request.json`: `None`,
booleans, numbers, strings, lists and dicts (association lists with
string keys, first binding wins, as in a Python dict literal with
distinct keys). -/
inductive PyVal where
  | pynone
  | pybool (b : Bool)
  | pynum (q : Frac)
  | pystr (s : String)
  | pylist (xs : List PyVal)
  | pydict (kvs : List (String × PyVal))

/-- Python truthiness (`if v:`): `None`/`False`/`0`/empty containers are
falsy. -/
def PyVal.truthy : PyVal → Bool
  | .pynone => false
  | .pybool b => b
  | .pynum q => !(decide (q.num = 0))
  | .pystr s => s ≠ ""
  | .pylist xs => !xs.isEmpty
  | .pydict kvs => !kvs.isEmpty

/-- Python `v.get(k, dflt)`: dict lookup with default; raises
`AttributeError` when `v` is not a dict. -/
def pyGet (v : PyVal) (k : String) (dflt : PyVal) : Except PyErr PyVal :=
  match v with
  | .pydict kvs => .ok ((kvs.lookup k).getD dflt)
  | _ => .error .attributeError

/-- Python `for x in v`: lists yield their elements, strings their
characters (as 1-character strings), dicts their keys; other values raise
`TypeError`. -/
def pyIterate : PyVal → Except PyErr (List PyVal)
  | .pylist xs => .ok xs
  | .pystr s => .ok (s.data.map fun c => .pystr (String.mk [c]))
  | .pydict kvs => .ok (kvs.map fun kv => PyVal.pystr kv.1)
  | _ => .error .typeError

/-- Python `v == 0` (app.py line 47, `chunk_page == 0`): true for the
number `0` and for `False`; all other values compare unequal to `0`. -/
def pyEqZero : PyVal → Bool
  | .pynum q => decide (q.num = 0)
  | .pybool b => !b
  | _ => false

/-- Numeric coercion used by Python arithmetic: numbers are themselves,
booleans count as `0`/`1`, anything else raises `TypeError`.  (For two
strings Python would raise only at the later division by 2; the
observable request outcome is the same `TypeError`.) -/
def pyToNum : PyVal → Except PyErr Frac
  | .pynum q => .ok q
  | .pybool b => .ok (if b then Frac.fromInt 1 else Frac.fromInt 0)
  | _ => .error .typeError

/-- Characters Python's `str.strip()` and `str.split()` treat as
whitespace (the ASCII ones; exotic Unicode whitespace is not modelled). -/
def isPyWs (c : Char) : Bool :=
  c == ' ' || c == '\t' || c == '\n' || c == '\x0d' || c == '\x0b' || c == '\x0c'

/-- Python `s.strip()` over a character list. -/
def stripChars (l : List Char) : List Char :=
  ((l.dropWhile isPyWs).reverse.dropWhile isPyWs).reverse

/-- True when `pat` is a leading run of `s`. -/
def startsWithChars : List Char → List Char → Bool
  | _, [] => true
  | [], _ :: _ => false
  | c :: cs, p :: ps => c = p && startsWithChars cs ps

/-- Python substring test `pat in s` over character lists. -/
def containsChars : List Char → List Char → Bool
  | [], pat => startsWithChars [] pat
  | c :: cs, pat => startsWithChars (c :: cs) pat || containsChars cs pat

/-- Python `pat in s` for strings (app.py line 47, `'Page' in markdown`). -/
def pyInStr (pat s : String) : Bool :=
  containsChars s.data pat.data

/-- Remove `sep` from the front of the list, if it is a leading run. -/
def dropStart : List Char → List Char → Option (List Char)
  | [], rest => some rest
  | _ :: _, [] => Option.none
  | p :: ps, c :: cs => if c = p then dropStart ps cs else Option.none

/-- Worker for Python `s.split(sep)` with a nonempty separator: scan left
to right, cutting at each non-overlapping occurrence of `sep`.  `fuel`
bounds the recursion; with `fuel > length of the remaining input` it
never runs out (each step consumes at least one character). -/
def splitOnCharsAux (sep : List Char) : Nat → List Char → List Char → List (List Char)
  | 0, acc, rest => [acc.reverse ++ rest]
  | _ + 1, acc, [] => [acc.reverse]
  | fuel + 1, acc, c :: cs =>
    match dropStart sep (c :: cs) with
    | some rest => acc.reverse :: splitOnCharsAux sep fuel [] rest
    | Option.none => splitOnCharsAux sep fuel (c :: acc) cs

/-- Python `s.split(sep)` for a nonempty separator string (app.py line
52, `markdown.split('Page')`). -/
def pySplitOn (s sep : String) : List String :=
  (splitOnCharsAux sep.data (s.data.length + 1) [] s.data).map String.mk

/-- Worker for Python `s.split()` (no separator): split on whitespace
runs, discarding empty pieces. -/
def splitWsAux : List Char → List Char → List (List Char)
  | acc, [] => if acc.isEmpty then [] else [acc.reverse]
  | acc, c :: cs =>
    if isPyWs c then
      if acc.isEmpty then splitWsAux [] cs else acc.reverse :: splitWsAux [] cs
    else
      splitWsAux (c :: acc) cs

/-- Python `s.split()` (app.py line 52). -/
def pySplitWs (s : String) : List String :=
  (splitWsAux [] s.data).map String.mk

/-- Digit-string value: `some` of the value when every character is an
ASCII digit and the initial call gets a nonempty list. -/
def digitsVal : List Char → Nat → Option Nat
  | [], acc => some acc
  | c :: cs, acc =>
    if c.isDigit then digitsVal cs (acc * 10 + (c.toNat - 48)) else Option.none

/-- Python `int(s)` on a string: optional sign followed by digits
(surrounding whitespace stripped); `none` models `ValueError`.
(Modelling note: Python additionally accepts underscore digit grouping,
which nothing here exercises.) -/
def pyParseInt (s : String) : Option Int :=
  match stripChars s.data with
  | [] => Option.none
  | '-' :: ds => if ds.isEmpty then Option.none else (digitsVal ds 0).map fun n => -(n : Int)
  | '+' :: ds => if ds.isEmpty then Option.none else (digitsVal ds 0).map fun n => (n : Int)
  | ds => (digitsVal ds 0).map fun n => (n : Int)

/-- One entry of the list returned by `extract_toc_from_grounding`
(app.py lines 66-70): the dict `{"y": ..., "page": ..., "label": ...}`. -/
structure TocItem where
  y : Int
  page : Int
  label : String
deriving DecidableEq

/-- app.py line 63: `center_percent = (box_top + box_bottom) / 2`. -/
def centerFrac (qt qb : Frac) : Frac := (qt.add qb).half

/-- app.py line 64: `y_position = pdf_height - (center_percent *
pdf_height)` with the fixed reference height `pdf_height = 792`
(line 38).  The actual page height of the document is never consulted. -/
def yPosFrac (qt qb : Frac) : Frac :=
  (Frac.fromInt 792).sub ((centerFrac qt qb).mul (Frac.fromInt 792))

/-- app.py line 67: `int(y_position)`. -/
def computeY (qt qb : Frac) : Int :=
  pyTrunc (yPosFrac qt qb)

/-- Body of the inner `try` of `extract_toc_from_grounding` (app.py lines
50-70): extract the first whitespace token after the last occurrence of
`"Page"`, parse it as an int, then read the bounding box and compute the
y coordinate. -/
def innerParse (md : String) (grounding : PyVal) : Except PyErr TocItem := do
  let pieces := pySplitOn md "Page"
  let lastPiece := pieces.getLastD ""
  let toks := pySplitWs (String.mk (stripChars lastPiece.data))
  let pageText ← match toks with
    | [] => Except.error PyErr.indexError
    | t :: _ => Except.ok t
  let targetPage ← match pyParseInt pageText with
    | Option.none => Except.error PyErr.valueError
    | some v => Except.ok v
  let box ← pyGet grounding "box" (.pydict [])
  let boxTop ← pyGet box "top" (.pynum (Frac.fromInt 0))
  let boxBottom ← pyGet box "bottom" (.pynum (Frac.fromInt 0))
  let qt ← pyToNum boxTop
  let qb ← pyToNum boxBottom
  Except.ok { y := computeY qt qb, page := targetPage, label := String.mk (md.data.take 50) }

/-- Per-chunk processing of `extract_toc_from_grounding` (app.py lines
41-76): read `grounding`, `page` and `markdown`; when the chunk is on
page 0 and its text mentions `"Page"`, run the inner parse, where only
`ValueError` and `IndexError` are absorbed (`except ... continue`, lines
74-76); other exceptions propagate to the outer handler. -/
def processChunk (chunk : PyVal) : Except PyErr (Option TocItem) := do
  let grounding ← pyGet chunk "grounding" (.pydict [])
  let chunkPage ← pyGet grounding "page" .pynone
  let markdown ← pyGet chunk "markdown" (.pystr "")
  if pyEqZero chunkPage then
    match markdown with
    | .pystr md =>
      if pyInStr "Page" md then
        match innerParse md grounding with
        | .ok item => .ok (some item)
        | .error .valueError => .ok Option.none
        | .error .indexError => .ok Option.none
        | .error e => .error e
      else .ok Option.none
    | _ => .error .typeError
  else .ok Option.none

/-- Body of the outer `try` of `extract_toc_from_grounding` (app.py lines
28-79): obtain the chunks (from the first element of a nonempty list, or
from the dict itself, line 30-33), iterate, and collect the items of the
surviving chunks in order. -/
def extractBody (groundingData : PyVal) : Except PyErr (List TocItem) := do
  let chunksVal ← match groundingData with
    | .pylist xs =>
      match xs with
      | [] => Except.ok (PyVal.pylist [])
      | x :: _ => pyGet x "chunks" (.pylist [])
    | v => pyGet v "chunks" (.pylist [])
  let chunks ← pyIterate chunksVal
  chunks.foldlM
    (fun acc c => do
      match ← processChunk c with
      | some item => pure (acc ++ [item])
      | Option.none => pure acc)
    []

/-- `extract_toc_from_grounding` (app.py lines 20-83): the outer
`except Exception` (lines 81-83) turns any escaped exception into the
empty list. -/
def extract_toc_from_grounding (groundingData : PyVal) : List TocItem :=
  match extractBody groundingData with
  | .ok items => items
  | .error _ => []

/-- One entry of the `toc_items` list consumed by the annotation loop
(app.py lines 144-189).  The loop reads only `item["page"]` and
`item["y"]` (lines 145, 156, 158); `x`, `width`, `height` and `name` are
modelled so that theorems can quantify over them, but the source never
reads them.  An absent key is `Option.none`; reading it raises
`KeyError`. -/
structure Item where
  y : Option Int := Option.none
  page : Option Int := Option.none
  x : Option Int := Option.none
  width : Option Int := Option.none
  height : Option Int := Option.none
  name : Option String := Option.none
deriving DecidableEq

/-- The dicts appended by `extract_toc_from_grounding` always carry `y`
and `page` (and a `label` the annotation loop never reads). -/
def TocItem.toItem (t : TocItem) : Item :=
  { y := some t.y, page := some t.page }

/-- A page-object identity: `srcPage i` is
`reader.pages[i].indirect_reference`, an object of the downloaded source
document's graph; `outPage i` is the identity the writer assigns when a
page is imported into the output graph by `writer.add_page`. -/
inductive Ref where
  | srcPage (i : Nat)
  | outPage (i : Nat)
deriving DecidableEq

/-- `true` exactly for identities belonging to the output document's
graph. -/
def Ref.isOutputLocal : Ref → Bool
  | .srcPage _ => false
  | .outPage _ => true

/-- A link annotation as built by app.py lines 149-185: `/Rect`
(lines 154-159), `/Border` and optional `/C` color (lines 162-172), the
`/H` highlight mode (line 175) and the `/GoTo` destination page object
(lines 178-183). -/
structure Annot where
  rect : Int × Int × Int × Int
  border : Int × Int × Int
  color : Option (Int × Int × Int)
  hmode : String
  dest : Ref
deriving DecidableEq

/-- Build one link annotation (app.py lines 149-185).  The rectangle is
`(50, y - 10, 570, y + 30)` with hard-coded horizontal edges; when
`show_borders` is true the border is `[1, 1, 0]` with blue color
`[0, 0, 1]`, otherwise `[0, 0, 0]` and no color; the highlight mode is
always `/I`. -/
def mkLink (y : Int) (showBorders : Bool) (d : Ref) : Annot :=
  { rect := (50, y - 10, 570, y + 30)
    border := if showBorders then (1, 1, 0) else (0, 0, 0)
    color := if showBorders then some (0, 0, 1) else Option.none
    hmode := "/I"
    dest := d }

/-- Python list indexing `reader.pages[p]` with an `Int` index: negative
indices count from the end; out-of-range raises `IndexError`. -/
def pyIndex (n : Nat) (p : Int) : Except PyErr Nat :=
  let q : Int := if p < 0 then p + n else p
  if 0 ≤ q ∧ q < n then .ok q.toNat else .error .indexError

/-- The normalized position selected by a valid Python index. -/
def pyNorm (n : Nat) (p : Int) : Nat :=
  (if p < 0 then p + n else p).toNat

/-- Python `item[k]`: raises `KeyError` when the key is absent. -/
def getKey {α : Type} (o : Option α) : Except PyErr α :=
  match o with
  | some a => .ok a
  | Option.none => .error .keyError

/-- The annotation loop (app.py lines 143-189): for each item read
`item["page"]`; when `target_page < page_count` build the link — reading
`item["y"]` for the rectangle (line 156) and then resolving
`reader.pages[target_page]` for the destination (line 181) — and append
it; otherwise skip the item.  Exceptions abort the whole loop. -/
def attachLoop (n : Nat) (showBorders : Bool) : List Item → Except PyErr (List Annot)
  | [] => .ok []
  | item :: rest => do
    let p ← getKey item.page
    if p < (n : Int) then do
      let y ← getKey item.y
      let j ← pyIndex n p
      let restAnnots ← attachLoop n showBorders rest
      .ok (mkLink y showBorders (.srcPage j) :: restAnnots)
    else
      attachLoop n showBorders rest

/-- The auto-generation fallback (app.py lines 129-135): one item per
page `i` in `range(1, page_count)` with `y = start_y - (i - 1) * spacing`
and `page = i`. -/
def synthItems (pageCount : Nat) (startY spacing : Int) : List Item :=
  (List.range' 1 (pageCount - 1)).map fun (i : Nat) =>
    { y := some (startY - ((i : Int) - 1) * spacing), page := some (i : Int) }

/-- app.py lines 118-137: when `toc_items` is falsy, use the grounding
data when that is truthy, and otherwise auto-generate. -/
def resolveFallback (pageCount : Nat) (groundingData : Option PyVal)
    (startY spacing : Int) : List Item :=
  match groundingData with
  | some g => if g.truthy then (extract_toc_from_grounding g).map TocItem.toItem
              else synthItems pageCount startY spacing
  | Option.none => synthItems pageCount startY spacing

/-- app.py lines 115-137: `toc_items = data.get('toc_items')` followed by
`if not toc_items:` — an absent value and an empty list are both falsy
and fall through to the grounding/synthesis fallback. -/
def resolveItems (pageCount : Nat) (tocItems : Option (List Item))
    (groundingData : Option PyVal) (startY spacing : Int) : List Item :=
  match tocItems with
  | some l => if l.isEmpty then resolveFallback pageCount groundingData startY spacing else l
  | Option.none => resolveFallback pageCount groundingData startY spacing

/-- The document the handler serializes and returns: the pages written to
the writer (in order, identified by their content), the link annotations
carried by the first page, and the `links_added` counter the code logs
(app.py lines 143, 187: one increment per appended annotation, so it
equals the number of annotations). -/
structure OutputDoc where
  pages : List String
  annots : List Annot
  links_added : Nat
deriving DecidableEq

/-- The core of the `add_navigation` handler (app.py lines 104-208),
after the PDF bytes are downloaded and parsed: take `toc_page =
reader.pages[0]` (line 112, `IndexError` on a zero-page source), resolve
the target items (lines 115-137), run the annotation loop (lines
140-189), then write `toc_page` followed by pages `1 .. page_count - 1`
to the writer (lines 191-194).  `startY`/`spacing` model
`data.get('start_y', 650)` / `data.get('spacing', 60)` (lines 126-127).
An `Except.error` result is an exception reaching the handler's
`except Exception` (line 210), i.e. a failed request. -/
def add_navigation (pages : List String) (tocItems : Option (List Item))
    (groundingData : Option PyVal) (startY spacing : Option Int)
    (showBorders : Bool) : Except PyErr OutputDoc :=
  match pages with
  | [] => .error .indexError
  | tocPage :: rest =>
    let n := (tocPage :: rest).length
    let items := resolveItems n tocItems groundingData (startY.getD 650) (spacing.getD 60)
    match attachLoop n showBorders items with
    | .error e => .error e
    | .ok annots =>
      .ok { pages := tocPage :: rest, annots := annots, links_added := annots.length }

/-- The annotation loop processes an item without raising exactly when
its `page` key is present and either the page is skipped
(`page_count <= page`) or the item carries a `y` key and a valid Python
index (`-page_count <= page`). -/
def itemOk (n : Nat) (it : Item) : Prop :=
  ∃ p, it.page = some p ∧
    ((n : Int) ≤ p ∨ (-(n : Int) ≤ p ∧ it.y ≠ Option.none))

/-- The appearance attributes the border flag switches on. -/
def flagAdjust (a : Annot) : Annot :=
  { a with border := (1, 1, 0), color := some (0, 0, 1) }

/-- Everything of an annotation except its appearance attributes
(border and color): rectangle, highlight mode, destination. -/
def stripApp (a : Annot) : (Int × Int × Int × Int) × String × Ref :=
  (a.rect, a.hmode, a.dest)

/-- Everything of an output document except annotation appearance. -/
def projectOut (o : OutputDoc) : List String × Nat × List ((Int × Int × Int × Int) × String × Ref) :=
  (o.pages, o.links_added, o.annots.map stripApp)

theorem pyIndex_ok (n : Nat) (p : Int) (h1 : -(n : Int) ≤ p) (h2 : p < (n : Int)) :
    pyIndex n p = .ok (pyNorm n p) := by
  simp only [pyIndex, pyNorm]
  rw [if_pos]
  constructor <;> split <;> omega

theorem attachLoop_cons (n : Nat) (b : Bool) (it : Item) (l : List Item)
    (h : itemOk n it) :
    attachLoop n b (it :: l) =
      (attachLoop n b l).map fun anns =>
        if (it.page.getD 0) < (n : Int) then
          mkLink (it.y.getD 0) b (.srcPage (pyNorm n (it.page.getD 0))) :: anns
        else anns := by
  obtain ⟨p, hp, hcase⟩ := h
  by_cases hlt : p < (n : Int)
  · have hy : ∃ yv, it.y = some yv := by
      rcases hcase with hge | ⟨_, hy⟩
      · omega
      · cases hv : it.y with
        | none => exact absurd hv hy
        | some yv => exact ⟨yv, rfl⟩
    obtain ⟨yv, hyv⟩ := hy
    have hnle : -(n : Int) ≤ p := by
      rcases hcase with hge | ⟨hge, _⟩
      · omega
      · exact hge
    cases hres : attachLoop n b l with
    | error e =>
      simp [attachLoop, getKey, hp, hyv, hlt, pyIndex_ok n p hnle hlt, hres,
        Except.map, bind, Except.bind]
    | ok anns =>
      simp [attachLoop, getKey, hp, hyv, hlt, pyIndex_ok n p hnle hlt, hres,
        Except.map, bind, Except.bind]
  · cases hres : attachLoop n b l with
    | error e =>
      simp [attachLoop, getKey, hp, hlt, hres, Except.map, bind, Except.bind]
    | ok anns =>
      simp [attachLoop, getKey, hp, hlt, hres, Except.map, bind, Except.bind]

theorem attachLoop_ok (n : Nat) (b : Bool) (items : List Item)
    (h : ∀ it ∈ items, itemOk n it) :
    attachLoop n b items =
      .ok ((items.filter fun it => decide ((it.page.getD 0) < (n : Int))).map
        fun it => mkLink (it.y.getD 0) b (.srcPage (pyNorm n (it.page.getD 0)))) := by
  induction items with
  | nil => rfl
  | cons it l ih =>
    rw [attachLoop_cons n b it l (h it (by simp))]
    rw [ih fun x hx => h x (by simp [hx])]
    by_cases hlt : (it.page.getD 0) < (n : Int) <;>
      simp [List.filter_cons, hlt, Except.map]

theorem attachLoop_error_mono (n : Nat) (b : Bool) (pre l : List Item)
    (h : ∀ it ∈ pre, itemOk n it) (e : PyErr)
    (hl : attachLoop n b l = .error e) : attachLoop n b (pre ++ l) = .error e := by
  induction pre with
  | nil => simpa using hl
  | cons it pre ih =>
    rw [List.cons_append, attachLoop_cons n b it (pre ++ l) (h it (by simp))]
    rw [ih fun x hx => h x (by simp [hx])]
    rfl

theorem mkLink_flag (y : Int) (d : Ref) : mkLink y true d = flagAdjust (mkLink y false d) := rfl

theorem attachLoop_true_eq (n : Nat) (items : List Item) :
    attachLoop n true items = (attachLoop n false items).map (List.map flagAdjust) := by
  induction items with
  | nil => rfl
  | cons it l ih =>
    cases hp : it.page with
    | none => simp [attachLoop, getKey, hp, Except.map, bind, Except.bind]
    | some p =>
      by_cases hlt : p < (n : Int)
      · cases hy : it.y with
        | none => simp [attachLoop, getKey, hp, hy, hlt, Except.map, bind, Except.bind]
        | some yv =>
          cases hj : pyIndex n p with
          | error e => simp [attachLoop, getKey, hp, hy, hlt, hj, Except.map, bind, Except.bind]
          | ok j =>
            cases hrec : attachLoop n false l with
            | error e =>
              rw [hrec] at ih
              simp [attachLoop, getKey, hp, hy, hlt, hj, hrec, ih, Except.map, bind, Except.bind]
            | ok anns =>
              rw [hrec] at ih
              simp [attachLoop, getKey, hp, hy, hlt, hj, hrec, ih, Except.map, bind,
                Except.bind, mkLink_flag]
      · simp [attachLoop, getKey, hp, hlt, ih, Except.map, bind, Except.bind]

theorem extract_of_ok {g : PyVal} {items : List TocItem} (h : extractBody g = .ok items) :
    extract_toc_from_grounding g = items := by
  simp [extract_toc_from_grounding, h]

theorem extract_of_error {g : PyVal} {e : PyErr} (h : extractBody g = .error e) :
    extract_toc_from_grounding g = [] := by
  simp [extract_toc_from_grounding, h]

theorem range'_getElem? (s c j : Nat) :
    (List.range' s c)[j]? = if j < c then some (s + j) else Option.none := by
  induction c generalizing s j with
  | zero => simp
  | succ c ih =>
    cases j with
    | zero => simp [List.range']
    | succ j => simpa [List.range', Nat.add_assoc, Nat.add_comm 1 j] using ih (s + 1) j

theorem synthItems_mem (n : Nat) (sy sp : Int) (it : Item) (h : it ∈ synthItems n sy sp) :
    ∃ i : Nat, 1 ≤ i ∧ i < n ∧
      it = { y := some (sy - ((i : Int) - 1) * sp), page := some (i : Int) } := by
  obtain ⟨i, hi, hit⟩ := List.mem_map.mp (by simpa only [synthItems] using h)
  rw [List.mem_range'_1] at hi
  exact ⟨i, hi.1, by omega, hit.symm⟩

theorem attachLoop_synth (n : Nat) (b : Bool) (sy sp : Int) :
    ∃ anns : List Annot, attachLoop n b (synthItems n sy sp) = .ok anns
      ∧ anns.length = n - 1 := by
  have hmem : ∀ it ∈ synthItems n sy sp, itemOk n it := by
    intro it h
    obtain ⟨i, h1, h2, rfl⟩ := synthItems_mem n sy sp it h
    exact ⟨(i : Int), rfl, Or.inr ⟨by omega, by simp⟩⟩
  refine ⟨_, attachLoop_ok n b _ hmem, ?_⟩
  rw [List.length_map]
  have hfilter : (synthItems n sy sp).filter
      (fun it => decide ((it.page.getD 0) < (n : Int))) = synthItems n sy sp := by
    rw [List.filter_eq_self]
    intro it h
    obtain ⟨i, h1, h2, rfl⟩ := synthItems_mem n sy sp it h
    simp only [Option.getD_some, decide_eq_true_eq]
    omega
  rw [hfilter]
  simp [synthItems, List.length_range']

/-- C2 counterexample: a zero-page source makes the request fail
(`reader.pages[0]`, app.py line 112, raises `IndexError`, surfaced as a
500 response) instead of yielding an output with zero pages. -/
theorem zero_page_source_errors :
    add_navigation [] Option.none Option.none Option.none Option.none false
      = .error .indexError := rfl

/-- C2 amended: whenever the pipeline produces an output it has exactly
the source's pages, in the same order (page preservation); for a source
with at least one page the pipeline with synthesized targets always
succeeds, with one link per page after the first; but a zero-page source
fails with an error instead of producing a zero-page output. -/
theorem page_preservation :
    (∀ pages tocItems groundingData sy sp b o,
        add_navigation pages tocItems groundingData sy sp b = .ok o → o.pages = pages)
  ∧ (∀ (tocPage : String) (rest : List String) sy sp b,
        ∃ o, add_navigation (tocPage :: rest) Option.none Option.none sy sp b = .ok o
          ∧ o.pages = tocPage :: rest ∧ o.links_added = (tocPage :: rest).length - 1) := by
  constructor
  · intro pages toc g sy sp b o h
    cases pages with
    | nil => simp [add_navigation] at h
    | cons tp rest =>
      simp only [add_navigation] at h
      cases hres : attachLoop (tp :: rest).length b
          (resolveItems (tp :: rest).length toc g (sy.getD 650) (sp.getD 60)) with
      | error e => rw [hres] at h; simp at h
      | ok anns =>
        rw [hres] at h
        simp only [Except.ok.injEq] at h
        rw [← h]
  · intro tp rest sy sp b
    obtain ⟨anns, hloop, hlen⟩ :=
      attachLoop_synth (tp :: rest).length b (sy.getD 650) (sp.getD 60)
    refine ⟨{ pages := tp :: rest, annots := anns, links_added := anns.length }, ?_, rfl, hlen⟩
    simp only [add_navigation, resolveItems, resolveFallback]
    rw [hloop]

/-- C9: toggling `show_borders` changes only the appearance attributes
(`/Border` and `/C`, app.py lines 162-172); page content, the number of
links added, the rectangles, highlight modes and destinations of all
annotations are identical in the two runs, and the two runs fail
identically. -/
theorem show_borders_frame :
    ∀ pages tocItems groundingData sy sp,
      (add_navigation pages tocItems groundingData sy sp true).map projectOut =
      (add_navigation pages tocItems groundingData sy sp false).map projectOut := by
  intro pages toc g sy sp
  cases pages with
  | nil => rfl
  | cons tp rest =>
    simp only [add_navigation]
    rw [attachLoop_true_eq]
    cases hres : attachLoop (tp :: rest).length false
        (resolveItems (tp :: rest).length toc g (sy.getD 650) (sp.getD 60)) with
    | error e => rfl
    | ok anns =>
      simp only [Except.map, projectOut, List.map_map, List.length_map]
      have : stripApp ∘ flagAdjust = stripApp := by
        funext a
        rfl
      rw [this]

/-- C2 witness: page preservation and the synthesized-target success at
concrete inputs. -/
theorem page_preservation_witness :
    ({ pages := ["a", "b"],
       annots := [{ rect := (50, 10, 570, 50), border := (0, 0, 0), color := Option.none,
                    hmode := "/I", dest := .srcPage 1 }],
       links_added := 1 } : OutputDoc).pages = ["a", "b"]
  ∧ ∃ o, add_navigation ["c"] Option.none Option.none Option.none Option.none true = .ok o
      ∧ o.pages = ["c"] ∧ o.links_added = ["c"].length - 1 :=
  ⟨page_preservation.1 ["a", "b"] (some [{ y := some 20, page := some 1 }]) Option.none
      Option.none Option.none false _ rfl,
   page_preservation.2 "c" [] Option.none Option.none true⟩

/-- C3 counterexample: an explicit item whose `y` is missing (with an
in-range `page`) raises `KeyError` at app.py line 156 and the whole
request fails; the subsequent well-formed item is not attached, contrary
to the claimed per-item skip. -/
theorem missing_y_fatal :
    add_navigation ["a", "b", "c"]
      (some [{ y := Option.none, page := some 2 }, { y := some 100, page := some 1 }])
      Option.none Option.none Option.none false = .error .keyError := rfl

/-- C3 amended: an explicit item missing its `page` key, or missing its
`y` key while its page passes the `target_page < page_count` test, makes
the whole request fail with `KeyError` — items after it are not
attached.  (Only an item whose page fails the bounds test is skipped with
processing continuing, even if its `y` is missing.) -/
theorem malformed_item_fatal :
    (∀ (tocPage : String) (rest : List String) (pre : List Item) (bad : Item) (post : List Item)
        groundingData sy sp b,
      (∀ it ∈ pre, itemOk (tocPage :: rest).length it) →
      (bad.page = Option.none ∨
        ∃ p, bad.page = some p ∧ p < (((tocPage :: rest).length : Int)) ∧ bad.y = Option.none) →
      add_navigation (tocPage :: rest) (some (pre ++ bad :: post)) groundingData sy sp b
        = .error .keyError)
  ∧ (∀ (n : Nat) (b : Bool) (p : Int) (l : List Item), (n : Int) ≤ p →
      attachLoop n b ({ y := Option.none, page := some p } :: l) = attachLoop n b l) := by
  constructor
  · intro tp rest pre bad post g sy sp b hpre hbad
    have hne : (pre ++ bad :: post).isEmpty = false := by
      cases pre <;> simp
    have hhead : ∀ (n : Nat),
        (bad.page = Option.none ∨
          ∃ p, bad.page = some p ∧ p < (n : Int) ∧ bad.y = Option.none) →
        attachLoop n b (bad :: post) = .error .keyError := by
      intro n hb
      rcases hb with hnone | ⟨p, hp, hlt, hy⟩
      · simp [attachLoop, getKey, hnone, bind, Except.bind]
      · simp [attachLoop, getKey, hp, hy, hlt, bind, Except.bind]
    have hloop : attachLoop (tp :: rest).length b (pre ++ bad :: post) = .error .keyError :=
      attachLoop_error_mono _ _ _ _ hpre _ (hhead _ hbad)
    simp only [add_navigation, resolveItems, hne, Bool.false_eq_true, if_false]
    rw [hloop]
  · intro n b p l hge
    have hnlt : ¬ (p < (n : Int)) := by omega
    simp [attachLoop, getKey, hnlt, bind, Except.bind]

/-- C3 witness: a well-formed in-range item followed by an item missing
`y` makes the whole request fail; an item missing `y` whose page is out
of range is skipped. -/
theorem malformed_item_fatal_witness :
    add_navigation ["a", "b", "c"]
      (some [{ y := some 100, page := some 1 }, { y := Option.none, page := some 2 }])
      Option.none Option.none Option.none false = .error .keyError
  ∧ attachLoop 3 false [{ y := Option.none, page := some 5 }] = attachLoop 3 false [] :=
  ⟨malformed_item_fatal.1 "a" ["b", "c"] [{ y := some 100, page := some 1 }]
      { y := Option.none, page := some 2 } [] Option.none Option.none Option.none false
      (by
        intro it h
        simp only [List.mem_singleton] at h
        subst h
        exact ⟨1, rfl, Or.inr ⟨by decide, by simp⟩⟩)
      (Or.inr ⟨2, rfl, by decide, rfl⟩),
   malformed_item_fatal.2 3 false 5 [] (by decide)⟩

/-- C4 counterexample: an explicit empty target list is falsy
(`if not toc_items:`, app.py line 117) and, with no grounding data, the
synthesis fallback runs — a three-page source gets 2 links, not 0. -/
theorem empty_list_synthesizes :
    add_navigation ["a", "b", "c"] (some []) Option.none Option.none Option.none false
      = .ok { pages := ["a", "b", "c"],
              annots := [mkLink 650 false (.srcPage 1), mkLink 590 false (.srcPage 2)],
              links_added := 2 } := rfl

/-- C4 amended: an explicit empty target list is treated exactly like an
absent one (it falls through to grounding extraction or synthesis); it is
only a truthy grounding payload with no qualifying chunk that yields a
structurally valid output with the source's page content and zero added
annotations. -/
theorem empty_targets_behavior :
    (∀ pages groundingData sy sp b,
        add_navigation pages (some []) groundingData sy sp b =
          add_navigation pages Option.none groundingData sy sp b)
  ∧ (∀ (tocPage : String) (rest : List String) g sy sp b,
        PyVal.truthy g = true → extract_toc_from_grounding g = [] →
        add_navigation (tocPage :: rest) Option.none (some g) sy sp b =
          .ok { pages := tocPage :: rest, annots := [], links_added := 0 }) := by
  constructor
  · intro pages g sy sp b
    cases pages <;> rfl
  · intro tp rest g sy sp b hg hx
    simp only [add_navigation, resolveItems, resolveFallback, hg, if_pos, hx, List.map_nil]
    rfl

/-- C4 witness: a grounding payload with an empty chunk list yields the
source's pages and zero annotations. -/
theorem empty_targets_behavior_witness :
    add_navigation ["a", "b"] (some []) Option.none Option.none Option.none true =
      add_navigation ["a", "b"] Option.none Option.none Option.none Option.none true
  ∧ add_navigation ["a", "b"] Option.none (some (.pydict [("chunks", .pylist [])]))
      Option.none Option.none false
      = .ok { pages := ["a", "b"], annots := [], links_added := 0 } :=
  ⟨empty_targets_behavior.1 ["a", "b"] Option.none Option.none Option.none true,
   empty_targets_behavior.2 "a" ["b"] (.pydict [("chunks", .pylist [])])
      Option.none Option.none false rfl rfl⟩

/-- C5 counterexample: a target with `page = -1` on a two-page document
is not dropped — `-1 < page_count` passes the only bounds test (app.py
line 148) and Python's negative indexing at line 181 resolves
`reader.pages[-1]` to the last page, so one annotation is attached even
though zero targets have a destination index in `[0, page_count)`. -/
theorem negative_index_attached :
    add_navigation ["a", "b"] (some [{ y := some 100, page := some (-1) }])
      Option.none Option.none Option.none false
      = .ok { pages := ["a", "b"],
              annots := [{ rect := (50, 90, 570, 130), border := (0, 0, 0),
                           color := Option.none, hmode := "/I", dest := .srcPage 1 }],
              links_added := 1 }
  ∧ ([((-1 : Int))].filter fun p => decide (0 ≤ p ∧ p < 2)).length = 0 := ⟨rfl, rfl⟩

/-- C5 amended: only the upper bound is enforced — a target with
`destinationPageIndex >= page_count` is dropped without a fatal error,
and (when every item has its keys and a Python-valid index) the attached
count equals the number of targets with `destinationPageIndex <
page_count`; negative indices are not dropped but resolve from the end of
the document. -/
theorem bounds_check_upper :
    ∀ (tocPage : String) (rest : List String) (items : List Item) groundingData sy sp b,
      items ≠ [] →
      (∀ it ∈ items, ∃ p y, it.page = some p ∧ it.y = some y ∧
          -(((tocPage :: rest).length : Int)) ≤ p) →
      ∃ o, add_navigation (tocPage :: rest) (some items) groundingData sy sp b = .ok o ∧
        o.links_added = (items.filter fun it =>
          decide ((it.page.getD 0) < ((tocPage :: rest).length : Int))).length := by
  intro tp rest items g sy sp b hne hgood
  have hmem : ∀ it ∈ items, itemOk (tp :: rest).length it := by
    intro it h
    obtain ⟨p, y, hp, hy, hge⟩ := hgood it h
    exact ⟨p, hp, Or.inr ⟨hge, by simp [hy]⟩⟩
  have hloop := attachLoop_ok (tp :: rest).length b items hmem
  have hne' : items.isEmpty = false := by
    cases items with
    | nil => exact absurd rfl hne
    | cons _ _ => rfl
  have heq : add_navigation (tp :: rest) (some items) g sy sp b
      = .ok { pages := tp :: rest,
              annots := (items.filter fun it =>
                  decide ((it.page.getD 0) < ((tp :: rest).length : Int))).map
                fun it => mkLink (it.y.getD 0) b
                  (.srcPage (pyNorm (tp :: rest).length (it.page.getD 0))),
              links_added := ((items.filter fun it =>
                  decide ((it.page.getD 0) < ((tp :: rest).length : Int))).map
                fun it => mkLink (it.y.getD 0) b
                  (.srcPage (pyNorm (tp :: rest).length (it.page.getD 0)))).length } := by
    simp only [add_navigation, resolveItems, hne', Bool.false_eq_true, if_false]
    rw [hloop]
  exact ⟨_, heq, by simp [List.length_map]⟩

/-- C5 witness: with one in-range and one out-of-range target, exactly
the in-range one is attached. -/
theorem bounds_check_upper_witness :
    ∃ o, add_navigation ["a", "b"]
        (some [{ y := some 100, page := some 0 }, { y := some 50, page := some 5 }])
        Option.none Option.none Option.none false = .ok o ∧
      o.links_added = (([{ y := some 100, page := some 0 },
          { y := some 50, page := some 5 }] : List Item).filter fun it =>
            decide ((it.page.getD 0) < ((["a", "b"] : List String).length : Int))).length :=
  bounds_check_upper "a" ["b"]
    [{ y := some 100, page := some 0 }, { y := some 50, page := some 5 }]
    Option.none Option.none Option.none false (by decide)
    (by
      intro it h
      simp only [List.mem_cons, List.mem_singleton] at h
      rcases h with h | h | h
      · subst h; exact ⟨0, 100, rfl, rfl, by decide⟩
      · subst h; exact ⟨5, 50, rfl, rfl, by decide⟩
      · cases h)

/-- C7 counterexample: an item supplying `x = 0`, `width = 10`,
`height = 5` and `y = 100` gets the hard-coded rectangle
`(50, y - 10, 570, y + 30) = (50, 90, 570, 130)` (app.py lines 154-159),
not the claimed `(x, y, x + width, y + height) = (0, 100, 10, 105)`. -/
theorem rect_ignores_item_geometry :
    add_navigation ["a", "b"]
      (some [{ y := some 100, page := some 1, x := some 0, width := some 10, height := some 5 }])
      Option.none Option.none Option.none false
      = .ok { pages := ["a", "b"],
              annots := [{ rect := (50, 90, 570, 130), border := (0, 0, 0),
                           color := Option.none, hmode := "/I", dest := .srcPage 1 }],
              links_added := 1 }
  ∧ decide (((50 : Int), (90 : Int), (570 : Int), (130 : Int))
      = ((0 : Int), (100 : Int), (10 : Int), (105 : Int))) = false := ⟨rfl, rfl⟩

/-- C7 amended: the rectangle of every attached annotation is
`(50, y - 10, 570, y + 30)`, built from the target's `y` alone; the
target's `x`, `width`, `height` (and `name`) are ignored — no defaults
are applied, the horizontal edges are the constants 50 and 570 and the
height is the constant 40. -/
theorem rect_from_y_only :
    ∀ (tocPage : String) (rest : List String) (y p : Int) (xv wv hv : Option Int)
      (nm : Option String) groundingData sy sp b,
      0 ≤ p → p < ((tocPage :: rest).length : Int) →
      add_navigation (tocPage :: rest)
          (some [{ y := some y, page := some p, x := xv, width := wv, height := hv, name := nm }])
          groundingData sy sp b
        = .ok { pages := tocPage :: rest,
                annots := [{ rect := (50, y - 10, 570, y + 30),
                             border := if b then (1, 1, 0) else (0, 0, 0),
                             color := if b then some (0, 0, 1) else Option.none,
                             hmode := "/I",
                             dest := .srcPage p.toNat }],
                links_added := 1 } := by
  intro tp rest y p xv wv hv nm g sy sp b h0 hlt
  have hcons := attachLoop_cons (tp :: rest).length b
      { y := some y, page := some p, x := xv, width := wv, height := hv, name := nm } []
      ⟨p, rfl, Or.inr ⟨by omega, by simp⟩⟩
  have hnneg : ¬ (p < 0) := by omega
  have hlt' : p < (rest.length : Int) + 1 := by simpa using hlt
  simp only [add_navigation, resolveItems, List.isEmpty_cons, Bool.false_eq_true, if_false]
  rw [hcons]
  simp [attachLoop, Except.map, hlt', pyNorm, hnneg, mkLink]

/-- C7 witness: the amended rectangle shape at a concrete input with all
geometry fields supplied. -/
theorem rect_from_y_only_witness :
    add_navigation ["a", "b"]
      (some [{ y := some 100, page := some 1, x := some 3, width := some 4, height := some 5,
               name := some "t" }])
      Option.none Option.none Option.none true
      = .ok { pages := ["a", "b"],
              annots := [{ rect := (50, 90, 570, 130), border := (1, 1, 0),
                           color := some (0, 0, 1), hmode := "/I", dest := .srcPage 1 }],
              links_added := 1 } :=
  rect_from_y_only "a" ["b"] 100 1 (some 3) (some 4) (some 5) (some "t")
    Option.none Option.none Option.none true (by decide) (by decide)

/-- C1: at a concrete in-range target on a two-page source, the
destination stored in the attached annotation is
`reader.pages[1].indirect_reference` (app.py line 181) — the source
document graph's page object, which is not an output-local identity.
The pages written to the output graph get their own identities only at
`writer.add_page` (lines 192-194), after the annotation has been built
against the reader's graph. -/
theorem dest_names_source_page :
    (add_navigation ["a", "b"] (some [{ y := some 100, page := some 1 }])
        Option.none Option.none Option.none false
      = .ok { pages := ["a", "b"],
              annots := [{ rect := (50, 90, 570, 130), border := (0, 0, 0),
                           color := Option.none, hmode := "/I", dest := .srcPage 1 }],
              links_added := 1 })
  ∧ Ref.isOutputLocal (.srcPage 1) = false := ⟨rfl, rfl⟩

theorem pyTrunc_eq_ratTrunc (f : Frac) (hd : 0 < f.den) : pyTrunc f = ratTrunc f.toRat := by
  obtain ⟨n, d⟩ := f
  have hd' : (0 : Int) < d := hd
  simp only [pyTrunc, ratTrunc, Frac.toRat]
  lift d to ℕ using hd'.le with m hm
  have hm0 : 0 < m := by exact_mod_cast hd'
  have hmq : (0 : ℚ) < (((m : ℕ) : ℤ) : ℚ) := by push_cast; exact_mod_cast hm0
  rcases le_or_lt 0 n with hn | hn
  · have hq : ¬ ((n : ℚ) / (((m : ℕ) : ℤ) : ℚ) < 0) :=
      not_lt.mpr (div_nonneg (by exact_mod_cast hn) hmq.le)
    rw [if_neg hq, Int.tdiv_eq_ediv hn (by exact_mod_cast hm0.le)]
    have hcast : ((((m : ℕ) : ℤ)) : ℚ) = ((m : ℕ) : ℚ) := by push_cast; ring
    rw [hcast]
    exact (Rat.floor_intCast_div_natCast n m).symm
  · have hq : (n : ℚ) / (((m : ℕ) : ℤ) : ℚ) < 0 :=
      div_neg_of_neg_of_pos (by exact_mod_cast hn) hmq
    rw [if_pos hq]
    have h1 : n.tdiv ((m : ℕ) : ℤ) = -((-n).tdiv ((m : ℕ) : ℤ)) := by
      rw [← Int.neg_tdiv, neg_neg]
    have h2 : (n : ℚ) / (((m : ℕ) : ℤ) : ℚ) = -(((-n : ℤ) : ℚ) / ((m : ℕ) : ℚ)) := by
      push_cast; ring
    rw [h1, Int.tdiv_eq_ediv (by omega) (by exact_mod_cast hm0.le), h2, Int.ceil_neg,
      Rat.floor_intCast_div_natCast]

theorem yPosFrac_den_pos (qt qb : Frac) (h1 : 0 < qt.den) (h2 : 0 < qb.den) :
    0 < (yPosFrac qt qb).den := by
  obtain ⟨an, ad⟩ := qt
  obtain ⟨bn, bd⟩ := qb
  have ha : (0 : Int) < ad := h1
  have hb : (0 : Int) < bd := h2
  simp only [yPosFrac, centerFrac, Frac.add, Frac.half, Frac.mul, Frac.sub, Frac.fromInt]
  nlinarith [mul_pos ha hb]

theorem yPosFrac_toRat (qt qb : Frac) (h1 : 0 < qt.den) (h2 : 0 < qb.den) :
    (yPosFrac qt qb).toRat = 792 * (1 - (qt.toRat + qb.toRat) / 2) := by
  obtain ⟨an, ad⟩ := qt
  obtain ⟨bn, bd⟩ := qb
  have had : ((ad : ℚ)) ≠ 0 := Int.cast_ne_zero.mpr (by exact ne_of_gt h1)
  have hbd : ((bd : ℚ)) ≠ 0 := Int.cast_ne_zero.mpr (by exact ne_of_gt h2)
  simp only [yPosFrac, centerFrac, Frac.add, Frac.half, Frac.mul, Frac.sub, Frac.fromInt,
    Frac.toRat]
  push_cast
  field_simp
  ring

/-- C6: for every surviving grounding chunk the computed coordinate is
truncation of exactly `792 * (1 - (top + bottom) / 2)` — the fixed
reference height 792, never the page's actual height (`yPosFrac` takes no
page-height input); on the spec's example chunk the extraction yields
`page = 1` and stored `y = 696 = int(696.96)`, and the exact value
`792 * (1 - 0.12) = 696.96` lies within 1 of the spec's approximation
697. -/
theorem grounding_y_formula :
    (∀ qt qb : Frac, 0 < qt.den → 0 < qb.den →
        computeY qt qb = ratTrunc (792 * (1 - (qt.toRat + qb.toRat) / 2)))
  ∧ (extract_toc_from_grounding
        (.pydict [("chunks", .pylist [
          .pydict [("grounding", .pydict [("page", .pynum ⟨0, 1⟩),
                      ("box", .pydict [("top", .pynum ⟨1, 10⟩), ("bottom", .pynum ⟨14, 100⟩)])]),
                   ("markdown", .pystr "Executive Summary Page 1")]])])
      = [{ y := 696, page := 1, label := "Executive Summary Page 1" }])
  ∧ (computeY ⟨1, 10⟩ ⟨14, 100⟩ = 696)
  ∧ ((696 : ℚ) ≤ 792 * (1 - ((⟨1, 10⟩ : Frac).toRat + (⟨14, 100⟩ : Frac).toRat) / 2)
      ∧ 792 * (1 - ((⟨1, 10⟩ : Frac).toRat + (⟨14, 100⟩ : Frac).toRat) / 2) < 697) := by
  refine ⟨?_, rfl, by decide, ?_⟩
  · intro qt qb h1 h2
    rw [computeY, pyTrunc_eq_ratTrunc _ (yPosFrac_den_pos qt qb h1 h2),
      yPosFrac_toRat qt qb h1 h2]
  · constructor <;> norm_num [Frac.toRat]

/-- C6 witness: the formula conjunct applied at the example bounding box
`top = 1/10`, `bottom = 14/100`. -/
theorem grounding_y_formula_witness :
    computeY ⟨1, 10⟩ ⟨14, 100⟩ =
      ratTrunc (792 * (1 - ((⟨1, 10⟩ : Frac).toRat + (⟨14, 100⟩ : Frac).toRat) / 2)) :=
  grounding_y_formula.1 ⟨1, 10⟩ ⟨14, 100⟩ (by decide) (by decide)

/-- C8: with neither an explicit target list nor a grounding payload the
resolver produces the synthesized items — exactly one per page `i` in
`1 .. pageCount - 1` with `y = startY - (i - 1) * spacing` and
destination page `i` (the j-th generated item, 0-based, has
`y = startY - j * spacing` and page `j + 1`); with the defaults
`startY = 650, spacing = 60` an 8-page document gets 7 links with
`y = 650, 590, 530, 470, 410, 350, 290` mapping to pages 1..7. -/
theorem synth_fallback :
    (∀ (n : Nat) (sy sp : Int), resolveItems n Option.none Option.none sy sp = synthItems n sy sp)
  ∧ (∀ (n : Nat) (sy sp : Int), (synthItems n sy sp).length = n - 1)
  ∧ (∀ (n : Nat) (sy sp : Int) (j : Nat),
      (synthItems n sy sp)[j]? =
        if j < n - 1 then
          some { y := some (sy - (j : Int) * sp), page := some ((j : Int) + 1) }
        else Option.none)
  ∧ synthItems 8 650 60 =
      [{ y := some 650, page := some 1 }, { y := some 590, page := some 2 },
       { y := some 530, page := some 3 }, { y := some 470, page := some 4 },
       { y := some 410, page := some 5 }, { y := some 350, page := some 6 },
       { y := some 290, page := some 7 }]
  ∧ (add_navigation ["p0", "p1", "p2", "p3", "p4", "p5", "p6", "p7"] Option.none Option.none
      Option.none Option.none false).map (fun o => o.links_added) = .ok 7 := by
  refine ⟨fun n sy sp => rfl, fun n sy sp => by simp [synthItems, List.length_range'],
    ?_, by decide, rfl⟩
  intro n sy sp j
  simp only [synthItems, List.getElem?_map, range'_getElem?]
  by_cases hj : j < n - 1
  · rw [if_pos hj, if_pos hj]
    have e1 : ((1 + j : Nat) : Int) - 1 = (j : Int) := by push_cast; ring
    have e2 : ((1 + j : Nat) : Int) = (j : Int) + 1 := by push_cast; ring
    simp [e1, e2]
  · rw [if_neg hj, if_neg hj]
    rfl

/-- C10: the grounding extraction is total — when its body reaches a
result it is returned, and any exception escaping the body (shape errors,
non-iterable chunks, malformed chunk entries) is absorbed by the outer
handler into the empty list, so a request with a truthy grounding payload
whose extraction fails as a whole still succeeds with zero links; a chunk
whose trailing page token does not parse is skipped individually while
the rest are kept. -/
theorem grounding_total :
    (∀ g items, extractBody g = .ok items → extract_toc_from_grounding g = items)
  ∧ (∀ g e, extractBody g = .error e → extract_toc_from_grounding g = [])
  ∧ (∀ (tocPage : String) (rest : List String) g e sy sp b,
        PyVal.truthy g = true → extractBody g = .error e →
        add_navigation (tocPage :: rest) Option.none (some g) sy sp b =
          .ok { pages := tocPage :: rest, annots := [], links_added := 0 })
  ∧ (extract_toc_from_grounding (.pynum ⟨5, 1⟩) = []
      ∧ extract_toc_from_grounding (.pystr "chunks") = []
      ∧ extract_toc_from_grounding (.pylist [.pynum ⟨1, 1⟩]) = []
      ∧ extract_toc_from_grounding (.pydict [("chunks", .pynum ⟨3, 1⟩)]) = []
      ∧ extract_toc_from_grounding (.pydict [("chunks", .pylist [
          .pydict [("grounding", .pydict [("page", .pynum ⟨0, 1⟩),
                      ("box", .pydict [("top", .pynum ⟨1, 2⟩), ("bottom", .pynum ⟨1, 2⟩)])]),
                   ("markdown", .pystr "Intro Page 2")],
          .pynum ⟨7, 1⟩])]) = []
      ∧ extract_toc_from_grounding (.pydict [("chunks", .pylist [
          .pydict [("grounding", .pydict [("page", .pynum ⟨0, 1⟩)]),
                   ("markdown", .pystr "Contents Page next")],
          .pydict [("grounding", .pydict [("page", .pynum ⟨0, 1⟩),
                      ("box", .pydict [("top", .pynum ⟨1, 2⟩), ("bottom", .pynum ⟨1, 2⟩)])]),
                   ("markdown", .pystr "Intro Page 2")]])])
        = [{ y := 396, page := 2, label := "Intro Page 2" }]) := by
  refine ⟨fun g items h => extract_of_ok h, fun g e h => extract_of_error h, ?_,
    rfl, rfl, rfl, rfl, rfl, rfl⟩
  intro tp rest g e sy sp b hg hx
  have hext := extract_of_error hx
  simp only [add_navigation, resolveItems, resolveFallback, hg, if_pos, hext, List.map_nil]
  rfl

/-- C10 witness: the outer handler at concrete malformed payloads, and a
failing extraction leaving the request successful with zero links. -/
theorem grounding_total_witness :
    extract_toc_from_grounding (.pydict []) = []
  ∧ extract_toc_from_grounding (.pystr "x") = []
  ∧ add_navigation ["a"] Option.none (some (.pynum ⟨3, 1⟩)) Option.none Option.none false
      = .ok { pages := ["a"], annots := [], links_added := 0 } :=
  ⟨grounding_total.1 (.pydict []) [] rfl,
   grounding_total.2.1 (.pystr "x") .attributeError rfl,
   grounding_total.2.2.1 "a" [] (.pynum ⟨3, 1⟩) .attributeError Option.none Option.none false
     rfl rfl⟩

end PdfToc
